import Mathlib

/-!
Verification development for `lib/mayaUsd/ufe/UsdTransform3dMayaXformStack.cpp`.

The C++ source adapts an entity's authored USD transform-operation list to the
fixed Maya transform stack.  This file gives a shallow embedding: prims carry
their ordered xform-op list and attributes; the C++ `std::map` used by
`setXformOpOrder` and `getOrderedOps` is embedded as a key-sorted association
list with assignment (overwrite) semantics; C++ code that can throw
(`std::map::at`, `std::unordered_map::at`, the op-creation lambdas) is embedded
in `Option`, `none` standing for a thrown exception.
-/

namespace MayaXformStack

/-- Three components, as stored by a `GfVec3{f,d}` (components embedded as `Int`;
the claims under study never depend on fractional values). -/
structure Vec3 where
  x : Int
  y : Int
  z : Int
deriving DecidableEq

/-- Embedding of `VtValue`: empty, a single scalar (e.g. a `rotateX` angle), or
a 3-vector. -/
inductive VtValue where
  | empty : VtValue
  | scalar : Int → VtValue
  | vec : Vec3 → VtValue
deriving DecidableEq

/-- An xform op as it appears in an ordered op vector.  `opName` is the full op
name as returned by `UsdGeomXformOp::GetOpName`, including the `!invert!`
marker for inverse ops. -/
structure XformOp where
  opName : String
deriving DecidableEq

/-- An attribute of the prim: whether it has an authored value
(`UsdAttribute::HasValue`), the value, and the answer of the external
editability predicate.  The editability predicate `UsdUfe::isAttributeEditAllowed`
is outside this source file; modelled from the spec
(`isEditable(attribute) -> (bool, reason)`) as a per-attribute flag. -/
structure Attr where
  hasValue : Bool
  value : VtValue
  editable : Bool
deriving DecidableEq

/-- The entity (a USD prim) as seen by this source file: whether the
`UsdGeomXformable` schema applies, the ordered xform op list
(`GetOrderedXformOps`), the reset-stack flag, its attributes by name, the
editability of the `xformOpOrder` attribute, and failure switches for the
external store writes (`SetXformOpOrder` returning false, `AddTranslateOp`
returning an invalid op), which the spec lists as fallible external calls. -/
structure Prim where
  isXformable : Bool
  xformOps : List XformOp
  resetsXformStack : Bool
  attrs : List (String × Attr)
  xformOpOrderEditable : Bool
  setOrderFails : Bool
  addOpFail : List (String × Bool)
deriving DecidableEq

/-- Modelled from the spec: the canonical position enumeration `OpNdx` is
declared in `UsdTransform3dMayaXformStack.h`, which is not part of the given
source; §1 of the spec fixes the 13 slots and their order (translate, pivot,
rotate-pivot-translate, rotate-pivot, rotate, rotate-axis, rotate-pivot-inverse,
scale-pivot-translate, scale-pivot, shear, scale, scale-pivot-inverse,
pivot-inverse). -/
def NdxTranslate : Nat := 0

/-- Canonical slot of the common-API pivot. -/
def NdxPivot : Nat := 1

/-- Canonical slot of the rotate-pivot-translate op. -/
def NdxRotatePivotTranslate : Nat := 2

/-- Canonical slot of the rotate-pivot op. -/
def NdxRotatePivot : Nat := 3

/-- Canonical slot of the rotate op (all rotation encodings). -/
def NdxRotate : Nat := 4

/-- Canonical slot of the rotate-axis op. -/
def NdxRotateAxis : Nat := 5

/-- Canonical slot of the inverse rotate-pivot op. -/
def NdxRotatePivotInverse : Nat := 6

/-- Canonical slot of the scale-pivot-translate op. -/
def NdxScalePivotTranslate : Nat := 7

/-- Canonical slot of the scale-pivot op. -/
def NdxScalePivot : Nat := 8

/-- Canonical slot of the shear op. -/
def NdxShear : Nat := 9

/-- Canonical slot of the scale op. -/
def NdxScale : Nat := 10

/-- Canonical slot of the inverse scale-pivot op. -/
def NdxScalePivotInverse : Nat := 11

/-- Canonical slot of the inverse common-API pivot op. -/
def NdxPivotInverse : Nat := 12

/-- Number of canonical slots (`NbOpNdx`). -/
def NbOpNdx : Nat := 13

/-- The static op-name-to-Maya-stack-index table `gOpNameToNdx` (source lines
77-108), entry for entry. -/
def gOpNameToNdx : List (String × Nat) :=
  [ ("xformOp:translate", NdxTranslate),
    ("xformOp:translate:pivot", NdxPivot),
    ("xformOp:translate:rotatePivotTranslate", NdxRotatePivotTranslate),
    ("xformOp:translate:rotatePivot", NdxRotatePivot),
    ("xformOp:rotateX", NdxRotate),
    ("xformOp:rotateY", NdxRotate),
    ("xformOp:rotateZ", NdxRotate),
    ("xformOp:rotateXYZ", NdxRotate),
    ("xformOp:rotateXZY", NdxRotate),
    ("xformOp:rotateYXZ", NdxRotate),
    ("xformOp:rotateYZX", NdxRotate),
    ("xformOp:rotateZXY", NdxRotate),
    ("xformOp:rotateZYX", NdxRotate),
    ("xformOp:orient", NdxRotate),
    ("xformOp:rotateXYZ:rotateAxis", NdxRotateAxis),
    ("!invert!xformOp:translate:rotatePivot", NdxRotatePivotInverse),
    ("xformOp:translate:scalePivotTranslate", NdxScalePivotTranslate),
    ("xformOp:translate:scalePivot", NdxScalePivot),
    ("xformOp:transform:shear", NdxShear),
    ("xformOp:scale", NdxScale),
    ("!invert!xformOp:translate:scalePivot", NdxScalePivotInverse),
    ("!invert!xformOp:translate:pivot", NdxPivotInverse) ]

/-- Lookup in `gOpNameToNdx` without the throwing `.at`: `none` when the name
is not in the table (`gOpNameToNdx.find == end`). -/
def resolveNdx (n : String) : Option Nat :=
  List.lookup n gOpNameToNdx

/-- Drops a leading `!invert!` marker from a character list, if present. -/
def dropInvert : List Char → Option (List Char)
  | '!' :: 'i' :: 'n' :: 'v' :: 'e' :: 'r' :: 't' :: '!' :: rest => some rest
  | _ => none

/-- Embedding of `UsdGeomXformOp::GetName`: the underlying attribute name,
i.e. the op name without the `!invert!` marker (`GetOpName` keeps it). -/
def GetName (op : XformOp) : String :=
  match dropInvert op.opName.toList with
  | some rest => String.mk rest
  | none => op.opName

/-- Embedding of `UsdGeomXformOp::GetOpName(UsdGeomXformOp::Type, suffix)`
for a given op-type token: `xformOp:<type>` with `:<suffix>` appended when the
suffix is non-empty (the naming scheme visible throughout `gOpNameToNdx`). -/
def xformOpName (opType : String) (suffix : String) : String :=
  if suffix = "" then "xformOp:" ++ opType
  else "xformOp:" ++ opType ++ ":" ++ suffix

/-- Key-sorted association list standing for
`std::map<UsdTransform3dMayaXformStack::OpNdx, UsdGeomXformOp>`. -/
abbrev OpOrderMap := List (Nat × XformOp)

/-- Embedding of `orderedOps[ndx] = op` on a `std::map`: insert keeping keys
sorted, overwriting the entry whose key is already present. -/
def mapAssign : OpOrderMap → Nat → XformOp → OpOrderMap
  | [], k, v => [(k, v)]
  | (k', v') :: rest, k, v =>
    if k < k' then (k, v) :: (k', v') :: rest
    else if k = k' then (k, v) :: rest
    else (k', v') :: mapAssign rest k v

/-- The loop `for (const auto& op : oldOrder) { orderedOps[gOpNameToNdx.at(...)] = op; }`
(used both in `setXformOpOrder`, lines 126-129, and in `getOrderedOps`, lines
689-692).  `none` embeds the `std::out_of_range` thrown by `.at` on an
unresolvable op name. -/
def buildOrderedOps : OpOrderMap → List XformOp → Option OpOrderMap
  | m, [] => some m
  | m, op :: rest =>
    match resolveNdx op.opName with
    | none => none
    | some ndx => buildOrderedOps (mapAssign m ndx op) rest

/-- Embedding of the free function `setXformOpOrder(xformable)` (lines
117-140): rebuild the ordered map from the current op order, then write the
traversal of the map back as the new op order.  `none` embeds the `.at` throw;
`some (false, p)` embeds `SetXformOpOrder` returning false (external write
refused, nothing committed); `some (true, p')` the committed new order. -/
def setXformOpOrder (p : Prim) : Option (Bool × Prim) :=
  match buildOrderedOps [] p.xformOps with
  | none => none
  | some m =>
    if p.setOrderFails then some (false, p)
    else some (true, { p with xformOps := m.map (·.2) })

/-- Canonical position of an op for stating order invariants; ops under study
always resolve, the default is out of range. -/
def opPos (op : XformOp) : Nat :=
  (resolveNdx op.opName).getD NbOpNdx

/-- Embedding of `hasValidSuffix(xformOps)` (lines 144-154): every op's
attribute name (`GetName`, without the `!invert!` marker) is found in
`gOpNameToNdx`. -/
def hasValidSuffix (xformOps : List XformOp) : Bool :=
  xformOps.all (fun op => (resolveNdx (GetName op)).isSome)

/-- Decides whether a list of ops is an ordered substack: all names resolve
and the canonical positions strictly increase. -/
def isOrderedSubstack : List XformOp → Bool
  | [] => true
  | [op] => (resolveNdx op.opName).isSome
  | op₁ :: op₂ :: rest =>
    match resolveNdx op₁.opName, resolveNdx op₂.opName with
    | some n₁, some n₂ => decide (n₁ < n₂) && isOrderedSubstack (op₂ :: rest)
    | _, _ => false

/-- Modelled from the spec: `UsdMayaXformStack::MayaStack().MatchingSubstack`
lives in `fileio/utils/xformStack.h`, which is not part of the given source.
Per §4.6 the gate matches "only if the authored set of canonical positions
forms a valid (sub)set of this model's stack (checked via exact-substack
matching)", returning an empty list on mismatch. -/
def MatchingSubstack (ops : List XformOp) : List XformOp :=
  if isOrderedSubstack ops then ops else []

/-- Possible outcomes of `createTransform3d` (lines 156-189): a null pointer,
a Maya-transform-stack interface (a match), or the next handler's result. -/
inductive T3dResult where
  | nullPtr : T3dResult
  | mayaStack : T3dResult
  | nextHandler : T3dResult
deriving DecidableEq

/-- Embedding of the selection gate `createTransform3d(item, nextTransform3dFn)`
(lines 156-189).  The argument is the result of the `UsdSceneItem` dynamic
cast (`none` when the cast fails). -/
def createTransform3d (item : Option Prim) : T3dResult :=
  match item with
  | none => T3dResult.nullPtr
  | some p =>
    if ¬ p.isXformable then T3dResult.nullPtr
    else if p.xformOps.isEmpty then T3dResult.mayaStack
    else if ¬ hasValidSuffix p.xformOps then T3dResult.nextHandler
    else if (MatchingSubstack p.xformOps).isEmpty then T3dResult.nextHandler
    else T3dResult.mayaStack

/-- Embedding of `getOrderedOps()` (lines 683-694); `none` embeds the
`gOpNameToNdx.at` throw on an unresolvable op name. -/
def getOrderedOps (p : Prim) : Option OpOrderMap :=
  buildOrderedOps [] p.xformOps

/-- Embedding of `hasOp(ndx)` (lines 696-700). -/
def hasOp (p : Prim) (ndx : Nat) : Option Bool :=
  (getOrderedOps p).map (fun m => (List.lookup ndx m).isSome)

/-- Embedding of `getOp(ndx)` (lines 702-706); `none` embeds either throw
(`gOpNameToNdx.at` or `orderedOps.at`). -/
def getOp (p : Prim) (ndx : Nat) : Option XformOp :=
  (getOrderedOps p).bind (fun m => List.lookup ndx m)

/-- Embedding of `getOpSuffix(ndx)` (lines 708-718): the static 6-entry
suffix map, with `none` embedding the `opSuffix.at` throw for any other
index. -/
def getOpSuffix (ndx : Nat) : Option String :=
  List.lookup ndx
    [ (NdxRotatePivotTranslate, "rotatePivotTranslate"),
      (NdxRotatePivot, "rotatePivot"),
      (NdxRotateAxis, "rotateAxis"),
      (NdxScalePivotTranslate, "scalePivotTranslate"),
      (NdxScalePivot, "scalePivot"),
      (NdxShear, "shear") ]

/-- Embedding of `getTRSOpSuffix()` (line 720): the empty token. -/
def getTRSOpSuffix : String := ""

/-- Tags for the `CvtRotXYZFromAttrFn` conversion functions of
`RotationUtils.h` (that header is not part of the given source; only which tag
is keyed to which op name is defined here, from the table at lines 725-731). -/
inductive CvtFrom where
  | fromX | fromY | fromZ
  | fromXYZ | fromXZY | fromYXZ | fromYZX | fromZXY | fromZYX
deriving DecidableEq

/-- Tags for the `CvtRotXYZToAttrFn` conversion functions (table at lines
739-745). -/
inductive CvtTo where
  | toX | toY | toZ
  | toXYZ | toXZY | toYXZ | toYZX | toZXY | toZYX
deriving DecidableEq

/-- Embedding of `getCvtRotXYZFromAttrFn(opName)` (lines 722-734).  The outer
`Option` embeds the `cvt.at` throw for names absent from the table; the inner
`Option` is the stored `std::function`, `none` standing for the `nullptr`
stored for `xformOp:orient` ("FIXME, unsupported"). -/
def getCvtRotXYZFromAttrFn (opName : String) : Option (Option CvtFrom) :=
  List.lookup opName
    [ ("xformOp:rotateX", some CvtFrom.fromX),
      ("xformOp:rotateY", some CvtFrom.fromY),
      ("xformOp:rotateZ", some CvtFrom.fromZ),
      ("xformOp:rotateXYZ", some CvtFrom.fromXYZ),
      ("xformOp:rotateXZY", some CvtFrom.fromXZY),
      ("xformOp:rotateYXZ", some CvtFrom.fromYXZ),
      ("xformOp:rotateYZX", some CvtFrom.fromYZX),
      ("xformOp:rotateZXY", some CvtFrom.fromZXY),
      ("xformOp:rotateZYX", some CvtFrom.fromZYX),
      ("xformOp:orient", none) ]

/-- Embedding of `getCvtRotXYZToAttrFn(opName)` (lines 736-748), with the same
`Option` layering as `getCvtRotXYZFromAttrFn`. -/
def getCvtRotXYZToAttrFn (opName : String) : Option (Option CvtTo) :=
  List.lookup opName
    [ ("xformOp:rotateX", some CvtTo.toX),
      ("xformOp:rotateY", some CvtTo.toY),
      ("xformOp:rotateZ", some CvtTo.toZ),
      ("xformOp:rotateXYZ", some CvtTo.toXYZ),
      ("xformOp:rotateXZY", some CvtTo.toXZY),
      ("xformOp:rotateYXZ", some CvtTo.toYXZ),
      ("xformOp:rotateYZX", some CvtTo.toYZX),
      ("xformOp:rotateZXY", some CvtTo.toZXY),
      ("xformOp:rotateZYX", some CvtTo.toZYX),
      ("xformOp:orient", none) ]

/-- Modelled from the spec: the numeric bodies of the `from*` conversion
functions live in `RotationUtils.h`, not in the given source.  §4.2 pins down
only that each converts the op's native storage to the fixed external XYZ
order; the single-axis encodings embed their angle on their axis and the XYZ
encoding is the identity on the stored triple; for the remaining three-axis
orders the spec leaves the numeric conversion to the codec, and they are
modelled as the stored triple (no claim under study depends on those values,
only on which converter is keyed). -/
def applyCvtFrom (c : CvtFrom) (v : VtValue) : Vec3 :=
  match c, v with
  | CvtFrom.fromX, VtValue.scalar s => ⟨s, 0, 0⟩
  | CvtFrom.fromY, VtValue.scalar s => ⟨0, s, 0⟩
  | CvtFrom.fromZ, VtValue.scalar s => ⟨0, 0, s⟩
  | _, VtValue.vec w => w
  | _, _ => ⟨0, 0, 0⟩

/-- Embedding of `UsdPrim::GetAttribute(name)`: the attribute of the prim
with that name, when it exists. -/
def primGetAttr (p : Prim) (name : String) : Option Attr :=
  List.lookup name p.attrs

/-- Whether the prim's attribute of the given name exists and has a value
(`attr && attr.HasValue()`; a missing attribute has no value). -/
def hasValueAttr (p : Prim) (name : String) : Bool :=
  match primGetAttr p name with
  | none => false
  | some a => a.hasValue

/-- The stored value of the prim's attribute of the given name (`attr.Get`);
empty when the attribute is missing. -/
def attrValueOf (p : Prim) (name : String) : VtValue :=
  match primGetAttr p name with
  | none => VtValue.empty
  | some a => a.value

/-- Extraction of a 3-vector from a `VtValue` (the typed `Get<V>` used by the
accessors; reads of a non-vector value leave the output default). -/
def asVec3 (v : VtValue) : Vec3 :=
  match v with
  | VtValue.vec w => w
  | _ => ⟨0, 0, 0⟩

/-- Embedding of `getVector3d<V>(attrName)` (lines 559-571): zero vector when
the attribute does not exist or has no value, otherwise the stored value. -/
def getVector3d (p : Prim) (attrName : String) : Vec3 :=
  match primGetAttr p attrName with
  | none => ⟨0, 0, 0⟩
  | some a => if ¬ a.hasValue then ⟨0, 0, 0⟩ else asVec3 a.value

/-- Embedding of `translation()` (lines 360-364):
`getVector3d<GfVec3d>(GetOpName(TypeTranslate, getTRSOpSuffix()))`. -/
def translation (p : Prim) : Vec3 :=
  getVector3d p (xformOpName "translate" getTRSOpSuffix)

/-- Embedding of `rotation()` (lines 366-379).  `none` embeds each throwing
path: `getOrderedOps`'s map-at throw, a `cvt.at` throw, and the call through
the null `std::function` stored for `xformOp:orient`. -/
def rotation (p : Prim) : Option Vec3 :=
  match hasOp p NdxRotate with
  | none => none
  | some false => some ⟨0, 0, 0⟩
  | some true =>
    match getOp p NdxRotate with
    | none => none
    | some r =>
      if ¬ hasValueAttr p (GetName r) then some ⟨0, 0, 0⟩
      else
        match getCvtRotXYZFromAttrFn r.opName with
        | none => none
        | some none => none
        | some (some cvt) => some (applyCvtFrom cvt (attrValueOf p (GetName r)))

/-- Embedding of `scale()` (lines 381-395): unit scale when the rotate slot's
analogue, the scale slot, is absent or its attribute has no value. -/
def scale (p : Prim) : Option Vec3 :=
  match hasOp p NdxScale with
  | none => none
  | some false => some ⟨1, 1, 1⟩
  | some true =>
    match getOp p NdxScale with
    | none => none
    | some s =>
      if ¬ hasValueAttr p (GetName s) then some ⟨1, 1, 1⟩
      else some (asVec3 (attrValueOf p (GetName s)))

/-- Embedding of `rotatePivot()` (lines 513-517); the outer `Option` embeds
the `opSuffix.at` throw inside `getOpSuffix` (provably absent here). -/
def rotatePivot (p : Prim) : Option Vec3 :=
  (getOpSuffix NdxRotatePivot).map (fun s => getVector3d p (xformOpName "translate" s))

/-- Embedding of `scalePivot()` (lines 525-529). -/
def scalePivot (p : Prim) : Option Vec3 :=
  (getOpSuffix NdxScalePivot).map (fun s => getVector3d p (xformOpName "translate" s))

/-- Embedding of `rotatePivotTranslation()` (lines 539-543). -/
def rotatePivotTranslation (p : Prim) : Option Vec3 :=
  (getOpSuffix NdxRotatePivotTranslate).map
    (fun s => getVector3d p (xformOpName "translate" s))

/-- Embedding of `scalePivotTranslation()` (lines 553-557). -/
def scalePivotTranslation (p : Prim) : Option Vec3 :=
  (getOpSuffix NdxScalePivotTranslate).map
    (fun s => getVector3d p (xformOpName "translate" s))

/-- Embedding of `isAttributeEditAllowed(attrName, errMsg)` (lines 750-766):
an existing non-editable target attribute fails; a missing target attribute
falls through to the editability of the `xformOpOrder` attribute.  The message
text comes from the external editability predicate, modelled as a fixed
diagnostic. -/
def isAttributeEditAllowed (p : Prim) (attrName : String) : Bool × String :=
  match (if attrName = "" then none else primGetAttr p attrName) with
  | some a =>
    if ¬ a.editable then (false, "Attribute edit not allowed") else (true, "")
  | none =>
    if ¬ p.xformOpOrderEditable then (false, "Attribute edit not allowed")
    else (true, "")

/-- Which factory produced a command (the closure's captured data suffices to
identify the command's behavior; the `OpFunc` bodies are embedded as the
standalone functions below). -/
inductive CmdKind where
  | rotate | scaleK | vec | pivot
deriving DecidableEq

/-- The data captured by a non-null command returned by a factory: the pending
new value, the captured attribute name and op suffix, and (for rotate) the
captured `CvtRotXYZToAttrFn` (possibly the null function). -/
structure MadeCmd where
  kind : CmdKind
  value : VtValue
  attrName : String
  opSuffix : String
  cvt : Option CvtTo
deriving DecidableEq

/-- Outcome of an edit-command factory: a thrown exception, a displayed error
message together with a returned null command, or a command. -/
inductive FactoryOut where
  | thrown : FactoryOut
  | nullCmd : String → FactoryOut
  | made : MadeCmd → FactoryOut
deriving DecidableEq

/-- The target attribute name computed at the top of `rotateCmd`/`scaleCmd`:
the existing op's name when the slot is populated, the empty token
otherwise. -/
def targetAttrName (m : OpOrderMap) (ndx : Nat) : String :=
  match List.lookup ndx m with
  | some op => op.opName
  | none => ""

/-- Embedding of `rotateCmd(x, y, z)` (lines 406-458).  `thrown` embeds the
`gOpNameToNdx.at` throw reachable through `hasOp`/`getOp` (the `cvt.at` lookup
cannot throw for a name that resolved to the rotate slot, but the embedding
keeps the path). -/
def rotateCmd (p : Prim) (x y z : Int) : FactoryOut :=
  match getOrderedOps p with
  | none => FactoryOut.thrown
  | some m =>
    let attrName := targetAttrName m NdxRotate
    let chk := isAttributeEditAllowed p attrName
    if ¬ chk.1 then FactoryOut.nullCmd chk.2
    else
      match List.lookup NdxRotate m with
      | some op =>
        match getCvtRotXYZToAttrFn op.opName with
        | none => FactoryOut.thrown
        | some cvt =>
          FactoryOut.made
            ⟨CmdKind.rotate, VtValue.vec ⟨x, y, z⟩, attrName, getTRSOpSuffix, cvt⟩
      | none =>
        FactoryOut.made
          ⟨CmdKind.rotate, VtValue.vec ⟨x, y, z⟩, attrName, getTRSOpSuffix,
            some CvtTo.toXYZ⟩

/-- Embedding of `scaleCmd(x, y, z)` (lines 460-505). -/
def scaleCmd (p : Prim) (x y z : Int) : FactoryOut :=
  match getOrderedOps p with
  | none => FactoryOut.thrown
  | some m =>
    let attrName := targetAttrName m NdxScale
    let chk := isAttributeEditAllowed p attrName
    if ¬ chk.1 then FactoryOut.nullCmd chk.2
    else
      FactoryOut.made
        ⟨CmdKind.scaleK, VtValue.vec ⟨x, y, z⟩, attrName, getTRSOpSuffix, none⟩

/-- Embedding of `setVector3dCmd(v, attrName, opSuffix)` (lines 573-618). -/
def setVector3dCmd (p : Prim) (v : Vec3) (attrName opSuffix : String) : FactoryOut :=
  let chk := isAttributeEditAllowed p attrName
  if ¬ chk.1 then FactoryOut.nullCmd chk.2
  else FactoryOut.made ⟨CmdKind.vec, VtValue.vec v, attrName, opSuffix, none⟩

/-- Embedding of `pivotCmd(pvtOpSuffix, x, y, z)` (lines 620-669). -/
def pivotCmd (p : Prim) (pvtOpSuffix : String) (x y z : Int) : FactoryOut :=
  let pvtAttrName := xformOpName "translate" pvtOpSuffix
  let chk := isAttributeEditAllowed p pvtAttrName
  if ¬ chk.1 then FactoryOut.nullCmd chk.2
  else
    FactoryOut.made ⟨CmdKind.pivot, VtValue.vec ⟨x, y, z⟩, pvtAttrName, pvtOpSuffix, none⟩

/-- Modelled from the spec: `UsdGeomXformable::AddTranslateOp(precision,
suffix, isInverseOp)` is the external store's
`addOperation(entity, kind, precision, suffix, isInverse?) -> OperationHandle?`
(§6) — it may fail (modelled by the prim's `addOpFail` switch, with no
mutation on failure), and on success appends the op to the ordered op list;
the forward op creates the backing attribute when missing, the inverse op
shares the forward op's attribute. -/
def addTranslateOp (p : Prim) (suffix : String) (isInverse : Bool) :
    Option (XformOp × Prim) :=
  if (suffix, isInverse) ∈ p.addOpFail then none
  else
    let attrName := xformOpName "translate" suffix
    let op : XformOp :=
      if isInverse then ⟨"!invert!" ++ attrName⟩ else ⟨attrName⟩
    let attrs :=
      if isInverse then p.attrs
      else
        match primGetAttr p attrName with
        | some _ => p.attrs
        | none => p.attrs ++ [(attrName, ⟨false, VtValue.empty, true⟩)]
    some (op, { p with xformOps := p.xformOps ++ [op], attrs := attrs })

/-- Embedding of the `OpFunc` lambda captured by `pivotCmd` (lines 633-665):
reuse the existing attribute when present; otherwise, inside one undo-recorded,
notification-guarded transaction, add the forward pivot translate op, add its
inverse, and rewrite the op order; any failure throws (`none`).  The source
attempts both additions before testing `!(p && pInv)`; the embedding
short-circuits after a failed addition, which is observationally equal
because a failed `AddTranslateOp` does not mutate and the transaction is
rolled back on the throw in either case.  The rollback
of the enclosing transaction on a throw is modelled from the spec (§5: "a
thrown failure mid-transaction leaves no partially-applied structural
change" — the undo machinery lives in `UsdSetXformOpUndoableCommandBase`,
outside the given source): a `none` result leaves the caller's prim
unchanged. -/
def pivotOpFunc (pvtAttrName pvtOpSuffix : String) (p : Prim) :
    Option (XformOp × Prim) :=
  match primGetAttr p pvtAttrName with
  | some _ => some (⟨pvtAttrName⟩, p)
  | none =>
    match addTranslateOp p pvtOpSuffix false with
    | none => none
    | some pr₁ =>
      match addTranslateOp pr₁.2 pvtOpSuffix true with
      | none => none
      | some pr₂ =>
        match setXformOpOrder pr₂.2 with
        | some (true, p₃) => some (pr₁.1, p₃)
        | _ => none

/-- Embedding of `UsdTRSUndoableCmdBase::createOpIfNeeded(undoableItem)`
(lines 232-238), with the command's cached `_op` handle and the world (the
prim acted on by the captured `OpFunc`) passed explicitly; `none` embeds a
throw from the `OpFunc`. -/
def createOpIfNeeded (op : Option XformOp) (opFunc : Prim → Option (XformOp × Prim))
    (p : Prim) : Option (Option XformOp × Prim) :=
  match op with
  | some _ => some (op, p)
  | none =>
    match opFunc p with
    | none => none
    | some (r, p') => some (some r, p')

/-- The last operation of the list resolving to canonical position `k`
(specification device for the overwrite semantics of `orderedOps[ndx] = op`). -/
def lastResolved : List XformOp → Nat → Option XformOp
  | [], _ => none
  | op :: rest, k =>
    Option.or (lastResolved rest k)
      (if resolveNdx op.opName = some k then some op else none)

/-! ### Lemmas about the ordered-map embedding -/

/-- Keys-increasing relation on map entries. -/
def keyLt (a b : Nat × XformOp) : Prop := a.1 < b.1

theorem mapAssign_mem {k : Nat} {v : XformOp} :
    ∀ {m : OpOrderMap}, ∀ e ∈ mapAssign m k v, e = (k, v) ∨ e ∈ m := by
  intro m
  induction m with
  | nil =>
    intro e he
    simp only [mapAssign, List.mem_singleton] at he
    exact Or.inl he
  | cons hd tl ih =>
    intro e he
    rcases hd with ⟨k', v'⟩
    simp only [mapAssign] at he
    split at he
    · rcases List.mem_cons.mp he with h | h
      · exact Or.inl h
      · exact Or.inr h
    · split at he
      · rcases List.mem_cons.mp he with h | h
        · exact Or.inl h
        · exact Or.inr (List.mem_cons_of_mem _ h)
      · rcases List.mem_cons.mp he with h | h
        · exact Or.inr (h ▸ List.mem_cons_self _ _)
        · rcases ih e h with h' | h'
          · exact Or.inl h'
          · exact Or.inr (List.mem_cons_of_mem _ h')

theorem mapAssign_pairwise {k : Nat} {v : XformOp} :
    ∀ {m : OpOrderMap}, List.Pairwise keyLt m →
      List.Pairwise keyLt (mapAssign m k v) := by
  intro m
  induction m with
  | nil => intro _; simp [mapAssign, keyLt]
  | cons hd tl ih =>
    intro h
    rcases hd with ⟨k', v'⟩
    rcases List.pairwise_cons.mp h with ⟨hhd, htl⟩
    simp only [mapAssign]
    split
    · next hk =>
      refine List.pairwise_cons.mpr ⟨?_, h⟩
      intro e he
      rcases List.mem_cons.mp he with h' | h'
      · subst h'; exact hk
      · exact lt_trans hk (hhd e h')
    · split
      · next hnlt heq =>
        refine List.pairwise_cons.mpr ⟨?_, htl⟩
        intro e he
        have := hhd e he
        simpa [keyLt, heq] using this
      · next hnlt hne =>
        have hk' : k' < k := by omega
        refine List.pairwise_cons.mpr ⟨?_, ih htl⟩
        intro e he
        rcases mapAssign_mem e he with h' | h'
        · subst h'; exact hk'
        · exact hhd e h'

theorem lookup_mapAssign_self {v : XformOp} :
    ∀ (m : OpOrderMap) (k : Nat), List.lookup k (mapAssign m k v) = some v := by
  intro m
  induction m with
  | nil => intro k; simp [mapAssign, List.lookup]
  | cons hd tl ih =>
    intro k
    rcases hd with ⟨k', v'⟩
    simp only [mapAssign]
    split
    · simp [List.lookup]
    · split
      · simp [List.lookup]
      · next h1 h2 =>
        have hne : (k == k') = false := by simp; omega
        simp [List.lookup, hne, ih]

theorem lookup_mapAssign_ne {v : XformOp} {k k' : Nat} (h : k' ≠ k) :
    ∀ (m : OpOrderMap), List.lookup k' (mapAssign m k v) = List.lookup k' m := by
  have hbe : (k' == k) = false := by simpa using h
  intro m
  induction m with
  | nil => simp [mapAssign, List.lookup, hbe]
  | cons hd tl ih =>
    rcases hd with ⟨k'', v''⟩
    simp only [mapAssign]
    split
    · simp [List.lookup, hbe]
    · split
      · next hnlt heq =>
        subst heq
        simp [List.lookup, hbe]
      · simp only [List.lookup]
        cases hkk : (k' == k'') <;> simp [hkk, ih]

theorem mem_of_lookup {k : Nat} {v : XformOp} :
    ∀ {m : OpOrderMap}, List.lookup k m = some v → (k, v) ∈ m := by
  intro m
  induction m with
  | nil => intro h; simp [List.lookup] at h
  | cons hd tl ih =>
    intro h
    rcases hd with ⟨k', v'⟩
    rw [List.lookup_cons] at h
    cases hkk : (k == k') with
    | true =>
      rw [hkk] at h
      have hk : k = k' := by simpa using hkk
      cases h
      subst hk
      exact List.mem_cons_self _ _
    | false =>
      rw [hkk] at h
      exact List.mem_cons_of_mem _ (ih h)

theorem buildOrderedOps_pairwise :
    ∀ (ops : List XformOp) (m m' : OpOrderMap),
      List.Pairwise keyLt m → buildOrderedOps m ops = some m' →
      List.Pairwise keyLt m' := by
  intro ops
  induction ops with
  | nil =>
    intro m m' h hb
    simp only [buildOrderedOps] at hb
    cases hb
    exact h
  | cons op rest ih =>
    intro m m' h hb
    simp only [buildOrderedOps] at hb
    split at hb
    · exact Option.noConfusion hb
    · exact ih _ _ (mapAssign_pairwise h) hb

theorem buildOrderedOps_resolves :
    ∀ (ops : List XformOp) (m m' : OpOrderMap),
      (∀ e ∈ m, resolveNdx e.2.opName = some e.1) →
      buildOrderedOps m ops = some m' →
      ∀ e ∈ m', resolveNdx e.2.opName = some e.1 := by
  intro ops
  induction ops with
  | nil =>
    intro m m' h hb
    simp only [buildOrderedOps] at hb
    cases hb
    exact h
  | cons op rest ih =>
    intro m m' h hb
    simp only [buildOrderedOps] at hb
    split at hb
    · exact Option.noConfusion hb
    · next ndx hndx =>
      refine ih _ _ ?_ hb
      intro e he
      rcases mapAssign_mem e he with h' | h'
      · subst h'; exact hndx
      · exact h e h'

theorem buildOrderedOps_lookup :
    ∀ (ops : List XformOp) (m m' : OpOrderMap),
      buildOrderedOps m ops = some m' →
      ∀ k, List.lookup k m' = Option.or (lastResolved ops k) (List.lookup k m) := by
  intro ops
  induction ops with
  | nil =>
    intro m m' hb k
    simp only [buildOrderedOps] at hb
    cases hb
    simp [lastResolved, Option.or]
  | cons op rest ih =>
    intro m m' hb k
    simp only [buildOrderedOps] at hb
    split at hb
    · exact Option.noConfusion hb
    · next ndx hndx =>
      have hih := ih _ _ hb k
      simp only [lastResolved, Option.or_assoc]
      rw [hih]
      congr 1
      by_cases hk : ndx = k
      · subst hk
        rw [lookup_mapAssign_self]
        simp [hndx, Option.or]
      · rw [lookup_mapAssign_ne (fun h => hk h.symm)]
        have : ¬ (resolveNdx op.opName = some k) := by
          rw [hndx]; simpa using hk
        simp [this, Option.or]

theorem buildOrderedOps_mem :
    ∀ (ops : List XformOp) (m m' : OpOrderMap),
      buildOrderedOps m ops = some m' →
      ∀ e ∈ m', e ∈ m ∨ some e.1 ∈ ops.map (fun op => resolveNdx op.opName) := by
  intro ops
  induction ops with
  | nil =>
    intro m m' hb e he
    simp only [buildOrderedOps] at hb
    cases hb
    exact Or.inl he
  | cons op rest ih =>
    intro m m' hb e he
    simp only [buildOrderedOps] at hb
    split at hb
    · exact Option.noConfusion hb
    · next ndx hndx =>
      rcases ih _ _ hb e he with h' | h'
      · rcases mapAssign_mem e h' with h'' | h''
        · refine Or.inr ?_
          simp only [List.map_cons, List.mem_cons]
          exact Or.inl (by rw [h'', hndx])
        · exact Or.inl h''
      · refine Or.inr ?_
        simp only [List.map_cons, List.mem_cons]
        exact Or.inr h'

theorem buildOrderedOps_isSome :
    ∀ (ops : List XformOp) (m : OpOrderMap),
      (∀ op ∈ ops, (resolveNdx op.opName).isSome) →
      ∃ m', buildOrderedOps m ops = some m' := by
  intro ops
  induction ops with
  | nil => intro m _; exact ⟨m, rfl⟩
  | cons op rest ih =>
    intro m hres
    have h₁ : (resolveNdx op.opName).isSome := hres op (List.mem_cons_self _ _)
    cases hr : resolveNdx op.opName with
    | none => rw [hr] at h₁; simp at h₁
    | some ndx =>
      rcases ih (mapAssign m ndx op)
          (fun o ho => hres o (List.mem_cons_of_mem _ ho)) with ⟨m', hm'⟩
      exact ⟨m', by simp only [buildOrderedOps, hr]; exact hm'⟩

theorem lookup_eq_of_mem :
    ∀ {m : OpOrderMap}, List.Pairwise keyLt m →
      ∀ {k : Nat} {v : XformOp}, (k, v) ∈ m → List.lookup k m = some v := by
  intro m
  induction m with
  | nil => intro _ k v h; simp at h
  | cons hd tl ih =>
    intro hpw k v hmem
    rcases hd with ⟨k', v'⟩
    rcases List.pairwise_cons.mp hpw with ⟨hhd, htl⟩
    rcases List.mem_cons.mp hmem with h | h
    · cases h
      simp [List.lookup]
    · have hk : k' < k := hhd _ h
      have hbe : (k == k') = false := by simp; omega
      simp only [List.lookup, hbe]
      exact ih htl h

/-! ### Claim theorems -/

/-- C1: for every authored operation list in which every operation name
resolves in `gOpNameToNdx`, `setXformOpOrder` commits an operation order whose
traversal yields strictly increasing canonical stack positions, whatever the
starting set of pre-existing operations. -/
theorem setXformOpOrder_canonical_order (p : Prim)
    (hres : ∀ op ∈ p.xformOps, (resolveNdx op.opName).isSome)
    (hw : p.setOrderFails = false) :
    ∃ p', setXformOpOrder p = some (true, p') ∧
      List.Pairwise (fun a b => opPos a < opPos b) p'.xformOps := by
  rcases buildOrderedOps_isSome p.xformOps [] hres with ⟨m, hm⟩
  have hpw := buildOrderedOps_pairwise p.xformOps [] m (by simp) hm
  have hrs := buildOrderedOps_resolves p.xformOps [] m (by simp) hm
  refine ⟨{ p with xformOps := m.map (·.2) }, ?_, ?_⟩
  · simp [setXformOpOrder, hm, hw]
  · show List.Pairwise (fun a b => opPos a < opPos b) (m.map (·.2))
    rw [List.pairwise_map]
    refine hpw.imp_of_mem ?_
    intro a b ha hb hab
    have h1 := hrs a ha
    have h2 := hrs b hb
    simpa [opPos, h1, h2] using hab

/-- Sample prim with an authored op order that is valid but out of canonical
order. -/
def wPrimUnsorted : Prim :=
  ⟨true, [⟨"xformOp:scale"⟩, ⟨"xformOp:rotateX"⟩, ⟨"xformOp:translate"⟩],
    false, [], true, false, []⟩

/-- Witness for C1 at a concrete out-of-order op list. -/
theorem setXformOpOrder_canonical_order_witness :
    ∃ p', setXformOpOrder wPrimUnsorted = some (true, p') ∧
      List.Pairwise (fun a b => opPos a < opPos b) p'.xformOps :=
  setXformOpOrder_canonical_order wPrimUnsorted (by decide) (by rfl)

/-- C3: the selection gate reports a match (a Maya-transform-stack interface)
for every transformable entity whose authored operation list is empty. -/
theorem createTransform3d_empty_match (p : Prim)
    (hx : p.isXformable = true) (he : p.xformOps = []) :
    createTransform3d (some p) = T3dResult.mayaStack := by
  simp [createTransform3d, hx, he]

/-- Witness for C3 at a concrete prim with no authored ops. -/
theorem createTransform3d_empty_match_witness :
    createTransform3d (some ⟨true, [], false, [], true, false, []⟩) =
      T3dResult.mayaStack :=
  createTransform3d_empty_match ⟨true, [], false, [], true, false, []⟩ rfl rfl

/-- C4: the selection gate delegates to the next handler whenever some
authored operation's name does not resolve in `gOpNameToNdx`, regardless of
the remaining operations. -/
theorem createTransform3d_unresolvable_delegates (p : Prim) (op : XformOp)
    (hx : p.isXformable = true) (hmem : op ∈ p.xformOps)
    (hbad : resolveNdx (GetName op) = none) :
    createTransform3d (some p) = T3dResult.nextHandler := by
  have hne : p.xformOps.isEmpty = false := by
    cases hops : p.xformOps with
    | nil => rw [hops] at hmem; simp at hmem
    | cons a l => simp
  have hv : hasValidSuffix p.xformOps = false := by
    rw [hasValidSuffix, List.all_eq_false]
    exact ⟨op, hmem, by simp [hbad]⟩
  simp [createTransform3d, hx, hne, hv]

/-- Witness for C4: a prim whose op list mixes a resolvable and an
unresolvable name. -/
theorem createTransform3d_unresolvable_delegates_witness :
    createTransform3d
        (some ⟨true, [⟨"xformOp:translate"⟩, ⟨"xformOp:bogus"⟩], false, [], true,
          false, []⟩) =
      T3dResult.nextHandler :=
  createTransform3d_unresolvable_delegates
    ⟨true, [⟨"xformOp:translate"⟩, ⟨"xformOp:bogus"⟩], false, [], true, false, []⟩
    ⟨"xformOp:bogus"⟩ rfl (by decide) (by decide)

/-- C7: once `createOpIfNeeded` has cached an operation handle, every
subsequent invocation is a no-op: it performs no creation side effects (the
world is returned untouched) and leaves the cached handle unchanged. -/
theorem createOpIfNeeded_idempotent (op : Option XformOp)
    (f : Prim → Option (XformOp × Prim)) (p : Prim)
    (op' : Option XformOp) (p' : Prim)
    (h : createOpIfNeeded op f p = some (op', p')) :
    ∀ (g : Prim → Option (XformOp × Prim)) (q : Prim),
      createOpIfNeeded op' g q = some (op', q) := by
  intro g q
  have : ∃ o, op' = some o := by
    cases op with
    | some o =>
      simp only [createOpIfNeeded] at h
      cases h
      exact ⟨o, rfl⟩
    | none =>
      simp only [createOpIfNeeded] at h
      split at h
      · exact Option.noConfusion h
      · next r p₁ hf =>
        cases h
        exact ⟨r, rfl⟩
  rcases this with ⟨o, ho⟩
  subst ho
  rfl

/-- Witness for C7: a first invocation caches the created handle; the theorem
then evaluates a second invocation to a no-op. -/
theorem createOpIfNeeded_idempotent_witness :
    createOpIfNeeded (some ⟨"xformOp:translate"⟩)
        (fun _ => none) wPrimUnsorted =
      some (some ⟨"xformOp:translate"⟩, wPrimUnsorted) :=
  createOpIfNeeded_idempotent none
    (fun q => some (⟨"xformOp:translate"⟩, q)) wPrimUnsorted
    (some ⟨"xformOp:translate"⟩) wPrimUnsorted rfl (fun _ => none) wPrimUnsorted

/-- C8 counterexample: the conversion-function lookup for the orientation
encoding `xformOp:orient` does not fail — `cvt.at` finds an entry in both
tables (the entry is the null `std::function`), so neither lookup raises a
fatal assertion. -/
theorem orient_cvt_lookup_succeeds :
    ¬ (getCvtRotXYZFromAttrFn "xformOp:orient" = none ∨
       getCvtRotXYZToAttrFn "xformOp:orient" = none) := by decide

/-- C8 amended: both conversion-table lookups for `xformOp:orient` succeed but
return the explicitly null conversion (`nullptr`), never a usable conversion;
consequently `rotation()` on a prim whose rotate op is orient-encoded fails
(calls through a null `std::function`) instead of silently passing wrong data
through. -/
theorem orient_cvt_lookup_yields_null (p : Prim) (r : XformOp)
    (hop : getOp p NdxRotate = some r) (hname : r.opName = "xformOp:orient")
    (hval : hasValueAttr p (GetName r) = true) :
    getCvtRotXYZFromAttrFn "xformOp:orient" = some none ∧
    getCvtRotXYZToAttrFn "xformOp:orient" = some none ∧
    rotation p = none := by
  refine ⟨by decide, by decide, ?_⟩
  simp only [getOp] at hop
  cases hg : getOrderedOps p with
  | none => rw [hg] at hop; simp at hop
  | some m =>
    rw [hg] at hop
    simp only [Option.some_bind] at hop
    have hho : hasOp p NdxRotate = some true := by
      simp [hasOp, hg, hop]
    have hcvt : getCvtRotXYZFromAttrFn r.opName = some none := by
      rw [hname]; decide
    simp [rotation, hho, getOp, hg, hop, hval, hcvt]

/-- Prim whose only rotate op uses the unsupported orient encoding, with an
authored value. -/
def wPrimOrient : Prim :=
  ⟨true, [⟨"xformOp:orient"⟩], false,
    [("xformOp:orient", ⟨true, VtValue.vec ⟨1, 2, 3⟩, true⟩)], true, false, []⟩

/-- Witness for the amended C8 at a concrete orient-encoded prim. -/
theorem orient_cvt_lookup_yields_null_witness :
    getCvtRotXYZFromAttrFn "xformOp:orient" = some none ∧
    getCvtRotXYZToAttrFn "xformOp:orient" = some none ∧
    rotation wPrimOrient = none :=
  orient_cvt_lookup_yields_null wPrimOrient ⟨"xformOp:orient"⟩ (by decide) rfl
    (by decide)

/-- C9 counterexample: the translate slot belongs to the canonical position
enumeration, yet `getOpSuffix` has no entry for it — the `opSuffix.at` lookup
throws instead of returning a suffix, so the suffix mapping is not total. -/
theorem getOpSuffix_not_total :
    NdxTranslate < NbOpNdx ∧ getOpSuffix NdxTranslate = none := by decide

/-- C9 amended: `getOpSuffix` is defined exactly on the six canonical
positions for which the source registers a suffix (rotate-pivot-translate,
rotate-pivot, rotate-axis, scale-pivot-translate, scale-pivot, shear) and
fails (throws) on every other canonical position. -/
theorem getOpSuffix_domain (ndx : Nat) (h : ndx < NbOpNdx) :
    (getOpSuffix ndx).isSome = true ↔
      (ndx = NdxRotatePivotTranslate ∨ ndx = NdxRotatePivot ∨
       ndx = NdxRotateAxis ∨ ndx = NdxScalePivotTranslate ∨
       ndx = NdxScalePivot ∨ ndx = NdxShear) := by
  have h' : ndx < 13 := h
  interval_cases ndx <;> decide

/-- Witness for the amended C9 at the rotate-pivot slot. -/
theorem getOpSuffix_domain_witness :
    (getOpSuffix NdxRotatePivot).isSome = true :=
  (getOpSuffix_domain NdxRotatePivot (by decide)).mpr (by decide)

/-- The attribute actually consulted by `isAttributeEditAllowed`: none when
the name is the empty token (the `IsEmpty` guard), the prim's attribute of
that name otherwise. -/
def primGetAttrChecked (p : Prim) (n : String) : Option Attr :=
  if n = "" then none else primGetAttr p n

theorem isAttributeEditAllowed_false_iff (p : Prim) (n : String) :
    (isAttributeEditAllowed p n).1 = false ↔
      ((∃ a, primGetAttrChecked p n = some a ∧ a.editable = false) ∨
       (primGetAttrChecked p n = none ∧ p.xformOpOrderEditable = false)) := by
  rw [isAttributeEditAllowed, primGetAttrChecked]
  cases h : (if n = "" then none else primGetAttr p n) with
  | none => cases ho : p.xformOpOrderEditable <;> simp [h, ho]
  | some a => cases ha : a.editable <;> simp [h, ha]

/-- C6: for each edit-command factory — `rotateCmd`, `scaleCmd`,
`setVector3dCmd`, `pivotCmd` — when the target attribute exists and is not
editable, or does not exist and the `xformOpOrder` attribute is not editable,
the factory returns a null command carrying the displayed error message, not
the thrown outcome (the factories are pure reads up to this point, so the
entity is not mutated). -/
theorem editNotAllowed_null_command (p : Prim) (x y z : Int) (v : Vec3)
    (attrName opSuffix pvtOpSuffix : String) :
    (∀ m, getOrderedOps p = some m →
        ((∃ a, primGetAttrChecked p (targetAttrName m NdxRotate) = some a ∧
            a.editable = false) ∨
         (primGetAttrChecked p (targetAttrName m NdxRotate) = none ∧
            p.xformOpOrderEditable = false)) →
        rotateCmd p x y z =
          FactoryOut.nullCmd
            (isAttributeEditAllowed p (targetAttrName m NdxRotate)).2) ∧
    (∀ m, getOrderedOps p = some m →
        ((∃ a, primGetAttrChecked p (targetAttrName m NdxScale) = some a ∧
            a.editable = false) ∨
         (primGetAttrChecked p (targetAttrName m NdxScale) = none ∧
            p.xformOpOrderEditable = false)) →
        scaleCmd p x y z =
          FactoryOut.nullCmd
            (isAttributeEditAllowed p (targetAttrName m NdxScale)).2) ∧
    (((∃ a, primGetAttrChecked p attrName = some a ∧ a.editable = false) ∨
      (primGetAttrChecked p attrName = none ∧ p.xformOpOrderEditable = false)) →
      setVector3dCmd p v attrName opSuffix =
        FactoryOut.nullCmd (isAttributeEditAllowed p attrName).2) ∧
    (((∃ a, primGetAttrChecked p (xformOpName "translate" pvtOpSuffix) = some a ∧
        a.editable = false) ∨
      (primGetAttrChecked p (xformOpName "translate" pvtOpSuffix) = none ∧
        p.xformOpOrderEditable = false)) →
      pivotCmd p pvtOpSuffix x y z =
        FactoryOut.nullCmd
          (isAttributeEditAllowed p (xformOpName "translate" pvtOpSuffix)).2) := by
  refine ⟨?_, ?_, ?_, ?_⟩
  · intro m hg hcond
    have hna := (isAttributeEditAllowed_false_iff p _).mpr hcond
    simp [rotateCmd, hg, hna]
  · intro m hg hcond
    have hna := (isAttributeEditAllowed_false_iff p _).mpr hcond
    simp [scaleCmd, hg, hna]
  · intro hcond
    have hna := (isAttributeEditAllowed_false_iff p _).mpr hcond
    simp [setVector3dCmd, hna]
  · intro hcond
    have hna := (isAttributeEditAllowed_false_iff p _).mpr hcond
    simp [pivotCmd, hna]

/-- Prim with no ops and a locked `xformOpOrder` attribute. -/
def wPrimLocked : Prim := ⟨true, [], false, [], false, false, []⟩

/-- Witness for C6: on a prim whose `xformOpOrder` attribute is locked and
whose target attributes do not exist, all four factories return the null
command with the error message. -/
theorem editNotAllowed_null_command_witness :
    rotateCmd wPrimLocked 1 2 3 =
      FactoryOut.nullCmd (isAttributeEditAllowed wPrimLocked "").2 ∧
    scaleCmd wPrimLocked 1 2 3 =
      FactoryOut.nullCmd (isAttributeEditAllowed wPrimLocked "").2 ∧
    setVector3dCmd wPrimLocked ⟨1, 2, 3⟩ "xformOp:translate" "" =
      FactoryOut.nullCmd
        (isAttributeEditAllowed wPrimLocked "xformOp:translate").2 ∧
    pivotCmd wPrimLocked "rotatePivot" 1 2 3 =
      FactoryOut.nullCmd
        (isAttributeEditAllowed wPrimLocked
          (xformOpName "translate" "rotatePivot")).2 := by
  have h := editNotAllowed_null_command wPrimLocked 1 2 3 ⟨1, 2, 3⟩
    "xformOp:translate" "" "rotatePivot"
  exact ⟨h.1 [] rfl (Or.inr ⟨rfl, rfl⟩),
    h.2.1 [] rfl (Or.inr ⟨rfl, rfl⟩),
    h.2.2.1 (Or.inr ⟨rfl, rfl⟩),
    h.2.2.2 (Or.inr ⟨rfl, rfl⟩)⟩

theorem getVector3d_default (p : Prim) (n : String)
    (h : hasValueAttr p n = false) : getVector3d p n = ⟨0, 0, 0⟩ := by
  rw [getVector3d]
  cases ha : primGetAttr p n with
  | none => rfl
  | some a =>
    simp only [hasValueAttr, ha] at h
    simp [h]

theorem hasOp_of_getOp {p : Prim} {ndx : Nat} {r : XformOp}
    (h : getOp p ndx = some r) : hasOp p ndx = some true := by
  simp only [getOp] at h
  cases hg : getOrderedOps p with
  | none => rw [hg] at h; simp at h
  | some m =>
    rw [hg] at h
    simp only [Option.some_bind] at h
    simp [hasOp, hg, h]

/-- C5: every read accessor returns its identity default when the wanted
canonical operation is absent or its attribute has never been written —
`translation`, the pivot accessors and `rotation` the zero vector, `scale` the
unit scale — and when the rotate operation exists with a value, `rotation`
converts the stored value through the conversion function keyed by that
operation's own encoding. -/
theorem read_accessor_defaults (p : Prim) :
    (hasValueAttr p (xformOpName "translate" getTRSOpSuffix) = false →
      translation p = ⟨0, 0, 0⟩) ∧
    (hasValueAttr p (xformOpName "translate" "rotatePivot") = false →
      rotatePivot p = some ⟨0, 0, 0⟩) ∧
    (hasValueAttr p (xformOpName "translate" "scalePivot") = false →
      scalePivot p = some ⟨0, 0, 0⟩) ∧
    (hasValueAttr p (xformOpName "translate" "rotatePivotTranslate") = false →
      rotatePivotTranslation p = some ⟨0, 0, 0⟩) ∧
    (hasValueAttr p (xformOpName "translate" "scalePivotTranslate") = false →
      scalePivotTranslation p = some ⟨0, 0, 0⟩) ∧
    (hasOp p NdxRotate = some false → rotation p = some ⟨0, 0, 0⟩) ∧
    (∀ r, getOp p NdxRotate = some r → hasValueAttr p (GetName r) = false →
      rotation p = some ⟨0, 0, 0⟩) ∧
    (∀ r, getOp p NdxRotate = some r → hasValueAttr p (GetName r) = true →
      rotation p = (getCvtRotXYZFromAttrFn r.opName).bind
        (fun oc => oc.map (fun c => applyCvtFrom c (attrValueOf p (GetName r))))) ∧
    (hasOp p NdxScale = some false → scale p = some ⟨1, 1, 1⟩) ∧
    (∀ s, getOp p NdxScale = some s → hasValueAttr p (GetName s) = false →
      scale p = some ⟨1, 1, 1⟩) := by
  refine ⟨?_, ?_, ?_, ?_, ?_, ?_, ?_, ?_, ?_, ?_⟩
  · intro h; exact getVector3d_default p _ h
  · intro h
    have hs : getOpSuffix NdxRotatePivot = some "rotatePivot" := by decide
    simp [rotatePivot, hs, getVector3d_default p _ h]
  · intro h
    have hs : getOpSuffix NdxScalePivot = some "scalePivot" := by decide
    simp [scalePivot, hs, getVector3d_default p _ h]
  · intro h
    have hs : getOpSuffix NdxRotatePivotTranslate = some "rotatePivotTranslate" := by
      decide
    simp [rotatePivotTranslation, hs, getVector3d_default p _ h]
  · intro h
    have hs : getOpSuffix NdxScalePivotTranslate = some "scalePivotTranslate" := by
      decide
    simp [scalePivotTranslation, hs, getVector3d_default p _ h]
  · intro h; simp [rotation, h]
  · intro r hr hval
    simp [rotation, hasOp_of_getOp hr, hr, hval]
  · intro r hr hval
    have hho := hasOp_of_getOp hr
    cases hc : getCvtRotXYZFromAttrFn r.opName with
    | none => simp [rotation, hho, hr, hval, hc]
    | some oc => cases oc <;> simp [rotation, hho, hr, hval, hc]
  · intro h; simp [scale, h]
  · intro s hs hval
    simp [scale, hasOp_of_getOp hs, hs, hval]

/-- Prim with no authored ops and no attributes. -/
def wPrimEmpty : Prim := ⟨true, [], false, [], true, false, []⟩

/-- Prim whose rotate op is a single-axis `rotateX` with a stored angle. -/
def wPrimRotX : Prim :=
  ⟨true, [⟨"xformOp:rotateX"⟩], false,
    [("xformOp:rotateX", ⟨true, VtValue.scalar 9, true⟩)], true, false, []⟩

/-- Witness for C5: identity defaults on a prim with no ops, and the
rotateX-keyed conversion on a prim storing a single-axis angle. -/
theorem read_accessor_defaults_witness :
    translation wPrimEmpty = ⟨0, 0, 0⟩ ∧
    rotatePivot wPrimEmpty = some ⟨0, 0, 0⟩ ∧
    scalePivot wPrimEmpty = some ⟨0, 0, 0⟩ ∧
    rotatePivotTranslation wPrimEmpty = some ⟨0, 0, 0⟩ ∧
    scalePivotTranslation wPrimEmpty = some ⟨0, 0, 0⟩ ∧
    rotation wPrimEmpty = some ⟨0, 0, 0⟩ ∧
    scale wPrimEmpty = some ⟨1, 1, 1⟩ ∧
    rotation wPrimRotX = some ⟨9, 0, 0⟩ := by
  have h1 := read_accessor_defaults wPrimEmpty
  have h2 := read_accessor_defaults wPrimRotX
  refine ⟨h1.1 rfl, h1.2.1 rfl, h1.2.2.1 rfl, h1.2.2.2.1 rfl, h1.2.2.2.2.1 rfl,
    h1.2.2.2.2.2.1 rfl, h1.2.2.2.2.2.2.2.2.1 rfl, ?_⟩
  have h3 := h2.2.2.2.2.2.2.2.1 ⟨"xformOp:rotateX"⟩ (by decide) (by decide)
  rw [h3]
  decide

theorem not_nodup_toFinset_card_lt {α : Type} [DecidableEq α] (l : List α)
    (h : ¬ l.Nodup) : l.toFinset.card < l.length := by
  rcases Nat.lt_or_ge l.toFinset.card l.length with hlt | hge
  · exact hlt
  · exfalso
    have hle := List.toFinset_card_le l
    have heq : l.toFinset.card = l.length := le_antisymm hle hge
    rw [List.card_toFinset] at heq
    have hsub := List.dedup_sublist l
    exact h (List.dedup_eq_self.mp (hsub.eq_of_length heq))

theorem buildOrderedOps_length_lt (ops : List XformOp) (m : OpOrderMap)
    (hb : buildOrderedOps [] ops = some m)
    (hdup : ¬ (ops.map (fun op => resolveNdx op.opName)).Nodup) :
    m.length < ops.length := by
  classical
  have hpw := buildOrderedOps_pairwise ops [] m (by simp) hb
  have hkeys : (m.map (fun e => some e.1) : List (Option Nat)).Nodup := by
    have h1 : (m.map (fun e => e.1)).Pairwise (· < ·) := List.pairwise_map.mpr hpw
    have h2 : (m.map (fun e => e.1)).Nodup := h1.imp (fun h => Nat.ne_of_lt h)
    have h3 := List.Nodup.map (Option.some_injective Nat) h2
    simpa [List.map_map] using h3
  have hsub : ∀ x ∈ (m.map (fun e => some e.1) : List (Option Nat)),
      x ∈ ops.map (fun op => resolveNdx op.opName) := by
    intro x hx
    rcases List.mem_map.mp hx with ⟨e, he, rfl⟩
    rcases buildOrderedOps_mem ops [] m hb e he with h | h
    · simp at h
    · exact h
  have h3 : (m.map (fun e => some e.1) : List (Option Nat)).toFinset ⊆
      (ops.map (fun op => resolveNdx op.opName)).toFinset := by
    intro x hx
    rw [List.mem_toFinset] at hx ⊢
    exact hsub x hx
  have h4 := Finset.card_le_card h3
  have h5 := not_nodup_toFinset_card_lt _ hdup
  have h2 := List.toFinset_card_of_nodup hkeys
  have h6 : (ops.map (fun op => resolveNdx op.opName)).length = ops.length := by simp
  have h7 : (m.map (fun e => some e.1) : List (Option Nat)).length = m.length := by simp
  omega

/-- C10: when two or more authored operations resolve to the same canonical
position, the ordered-map accessors (`getOrderedOps`, `hasOp`, `getOp`)
observe only the operation appearing last in the authored order for that
position, and `setXformOpOrder` commits a strictly shorter order from which
every operation other than the last of its position has been silently
dropped. -/
theorem duplicate_slots_last_wins (p : Prim)
    (hres : ∀ op ∈ p.xformOps, (resolveNdx op.opName).isSome)
    (hdup : ¬ (p.xformOps.map (fun op => resolveNdx op.opName)).Nodup)
    (hw : p.setOrderFails = false) :
    (∃ m, getOrderedOps p = some m ∧
       (∀ k, List.lookup k m = lastResolved p.xformOps k) ∧
       (∀ k, hasOp p k = some (lastResolved p.xformOps k).isSome) ∧
       (∀ k, getOp p k = lastResolved p.xformOps k)) ∧
    (∃ p', setXformOpOrder p = some (true, p') ∧
       p'.xformOps.length < p.xformOps.length ∧
       ∀ op' ∈ p'.xformOps, lastResolved p.xformOps (opPos op') = some op') := by
  rcases buildOrderedOps_isSome p.xformOps [] hres with ⟨m, hm⟩
  have hlk : ∀ k, List.lookup k m = lastResolved p.xformOps k := by
    intro k
    have h := buildOrderedOps_lookup p.xformOps [] m hm k
    simpa [List.lookup, Option.or_none] using h
  have hpw := buildOrderedOps_pairwise p.xformOps [] m (by simp) hm
  have hrs := buildOrderedOps_resolves p.xformOps [] m (by simp) hm
  refine ⟨⟨m, hm, hlk, ?_, ?_⟩, ?_⟩
  · intro k
    simp [hasOp, getOrderedOps, hm, hlk k]
  · intro k
    simp [getOp, getOrderedOps, hm, hlk k]
  · refine ⟨{ p with xformOps := m.map (·.2) }, ?_, ?_, ?_⟩
    · simp [setXformOpOrder, hm, hw]
    · simpa using buildOrderedOps_length_lt p.xformOps m hm hdup
    · intro op' hop'
      rcases List.mem_map.mp hop' with ⟨e, he, rfl⟩
      have h1 := hrs e he
      have h2 : opPos e.2 = e.1 := by simp [opPos, h1]
      rw [h2, ← hlk e.1]
      exact lookup_eq_of_mem hpw (by simpa using he)

/-- Prim whose authored list holds two ops resolving to the rotate slot. -/
def wPrimDup : Prim :=
  ⟨true, [⟨"xformOp:rotateX"⟩, ⟨"xformOp:rotateXYZ"⟩, ⟨"xformOp:translate"⟩],
    false, [], true, false, []⟩

/-- Witness for C10 at a prim holding both `rotateX` and `rotateXYZ`. -/
theorem duplicate_slots_last_wins_witness :
    (∃ m, getOrderedOps wPrimDup = some m ∧
       (∀ k, List.lookup k m = lastResolved wPrimDup.xformOps k) ∧
       (∀ k, hasOp wPrimDup k = some (lastResolved wPrimDup.xformOps k).isSome) ∧
       (∀ k, getOp wPrimDup k = lastResolved wPrimDup.xformOps k)) ∧
    (∃ p', setXformOpOrder wPrimDup = some (true, p') ∧
       p'.xformOps.length < wPrimDup.xformOps.length ∧
       ∀ op' ∈ p'.xformOps, lastResolved wPrimDup.xformOps (opPos op') = some op') :=
  duplicate_slots_last_wins wPrimDup (by decide) (by decide) rfl

theorem or_some_left {α : Type} (a : α) (o : Option α) :
    Option.or (some a) o = some a := rfl

theorem lastResolved_append (l₁ l₂ : List XformOp) (k : Nat) :
    lastResolved (l₁ ++ l₂) k = Option.or (lastResolved l₂ k) (lastResolved l₁ k) := by
  induction l₁ with
  | nil => simp [lastResolved, Option.or_none]
  | cons op rest ih =>
    simp only [List.cons_append, List.append_eq, lastResolved, ih, Option.or_assoc]

theorem lastResolved_pair {f i : XformOp} {kf ki : Nat}
    (hf : resolveNdx f.opName = some kf) (hi : resolveNdx i.opName = some ki)
    (hne : ki ≠ kf) :
    lastResolved [f, i] kf = some f ∧ lastResolved [f, i] ki = some i := by
  constructor
  · have h1 : ¬ (resolveNdx i.opName = some kf) := by
      rw [hi]; simpa using hne
    simp [lastResolved, hf, h1, Option.or]
  · simp [lastResolved, hi, Option.or]

theorem addTranslateOp_fwd_elim {p : Prim} {suffix : String} {pr : XformOp × Prim}
    (h : addTranslateOp p suffix false = some pr) :
    pr.1 = (⟨xformOpName "translate" suffix⟩ : XformOp) ∧
    pr.2.xformOps = p.xformOps ++ [pr.1] := by
  simp only [addTranslateOp] at h
  split at h
  · exact Option.noConfusion h
  · cases h
    exact ⟨rfl, rfl⟩

theorem addTranslateOp_inv_elim {p : Prim} {suffix : String} {pr : XformOp × Prim}
    (h : addTranslateOp p suffix true = some pr) :
    pr.1 = (⟨"!invert!" ++ xformOpName "translate" suffix⟩ : XformOp) ∧
    pr.2.xformOps = p.xformOps ++ [pr.1] := by
  simp only [addTranslateOp] at h
  split at h
  · exact Option.noConfusion h
  · cases h
    exact ⟨rfl, rfl⟩

theorem setXformOpOrder_some_true_elim {p p' : Prim}
    (h : setXformOpOrder p = some (true, p')) :
    ∃ m, buildOrderedOps [] p.xformOps = some m ∧ p'.xformOps = m.map (·.2) := by
  simp only [setXformOpOrder] at h
  split at h
  · exact Option.noConfusion h
  · next m hm =>
    split at h
    · simp at h
    · cases h
      exact ⟨m, hm, rfl⟩

theorem pivotOpFunc_some_elim {pvtAttrName pvtOpSuffix : String} {p : Prim}
    {op : XformOp} {p' : Prim}
    (habs : primGetAttr p pvtAttrName = none)
    (h : pivotOpFunc pvtAttrName pvtOpSuffix p = some (op, p')) :
    ∃ pr₁ pr₂, addTranslateOp p pvtOpSuffix false = some pr₁ ∧
      addTranslateOp pr₁.2 pvtOpSuffix true = some pr₂ ∧
      setXformOpOrder pr₂.2 = some (true, p') ∧ op = pr₁.1 := by
  rw [pivotOpFunc] at h
  split at h
  · next a heq => rw [habs] at heq; exact Option.noConfusion heq
  · split at h
    · exact Option.noConfusion h
    · next pr₁ h1 =>
      split at h
      · exact Option.noConfusion h
      · next pr₂ h2 =>
        split at h
        · next p₃ heq =>
          cases h
          exact ⟨pr₁, pr₂, h1, h2, heq, rfl⟩
        · exact Option.noConfusion h

/-- C2: when the pivot attribute does not yet exist, the op-creation function
captured by `pivotCmd` creates the forward pivot translate op and its inverse
inside one guarded transaction and only then rewrites the op order: on success
the committed list contains both members of the pair (and the returned handle
is the forward op); on any failure the function throws and — the transaction
rollback being modelled from the spec — the caller's prim is unchanged, so a
reader never observes the forward pivot without its inverse. -/
theorem pivotOpFunc_pair_atomic (p : Prim) (pvtOpSuffix : String)
    (hsfx : pvtOpSuffix = "rotatePivot" ∨ pvtOpSuffix = "scalePivot")
    (habs : primGetAttr p (xformOpName "translate" pvtOpSuffix) = none)
    (hnofwd : ∀ e ∈ p.xformOps, e.opName ≠ xformOpName "translate" pvtOpSuffix)
    (hnoinv : ∀ e ∈ p.xformOps,
        e.opName ≠ "!invert!" ++ xformOpName "translate" pvtOpSuffix) :
    (∀ op p',
        pivotOpFunc (xformOpName "translate" pvtOpSuffix) pvtOpSuffix p =
            some (op, p') →
        op.opName = xformOpName "translate" pvtOpSuffix ∧
        (∃ e ∈ p'.xformOps, e.opName = xformOpName "translate" pvtOpSuffix) ∧
        (∃ e ∈ p'.xformOps,
          e.opName = "!invert!" ++ xformOpName "translate" pvtOpSuffix)) ∧
    (pivotOpFunc (xformOpName "translate" pvtOpSuffix) pvtOpSuffix p = none →
        ∀ e ∈ p.xformOps,
          e.opName ≠ xformOpName "translate" pvtOpSuffix ∧
          e.opName ≠ "!invert!" ++ xformOpName "translate" pvtOpSuffix) := by
  obtain ⟨kf, ki, hkf, hki, hne⟩ :
      ∃ kf ki, resolveNdx (xformOpName "translate" pvtOpSuffix) = some kf ∧
        resolveNdx ("!invert!" ++ xformOpName "translate" pvtOpSuffix) = some ki ∧
        ki ≠ kf := by
    rcases hsfx with rfl | rfl
    · exact ⟨NdxRotatePivot, NdxRotatePivotInverse, by decide, by decide, by decide⟩
    · exact ⟨NdxScalePivot, NdxScalePivotInverse, by decide, by decide, by decide⟩
  constructor
  · intro op p' h
    rcases pivotOpFunc_some_elim habs h with ⟨pr₁, pr₂, h1, h2, h3, h4⟩
    rcases addTranslateOp_fwd_elim h1 with ⟨hf1, hf2⟩
    rcases addTranslateOp_inv_elim h2 with ⟨hi1, hi2⟩
    rcases setXformOpOrder_some_true_elim h3 with ⟨m, hm, hp'⟩
    have hops : pr₂.2.xformOps = p.xformOps ++ [pr₁.1, pr₂.1] := by
      rw [hi2, hf2, List.append_assoc]
      simp
    have hrf : resolveNdx pr₁.1.opName = some kf := by rw [hf1]; exact hkf
    have hri : resolveNdx pr₂.1.opName = some ki := by rw [hi1]; exact hki
    rcases lastResolved_pair hrf hri hne with ⟨hlf, hli⟩
    rw [hops] at hm
    have hlkf : List.lookup kf m = some pr₁.1 := by
      have hl := buildOrderedOps_lookup _ [] m hm kf
      rw [lastResolved_append, hlf, or_some_left] at hl
      simpa [List.lookup] using hl
    have hlki : List.lookup ki m = some pr₂.1 := by
      have hl := buildOrderedOps_lookup _ [] m hm ki
      rw [lastResolved_append, hli, or_some_left] at hl
      simpa [List.lookup] using hl
    refine ⟨by rw [h4, hf1], ?_, ?_⟩
    · refine ⟨pr₁.1, ?_, by rw [hf1]⟩
      rw [hp']
      exact List.mem_map.mpr ⟨(kf, pr₁.1), mem_of_lookup hlkf, rfl⟩
    · refine ⟨pr₂.1, ?_, by rw [hi1]⟩
      rw [hp']
      exact List.mem_map.mpr ⟨(ki, pr₂.1), mem_of_lookup hlki, rfl⟩
  · intro _ e he
    exact ⟨hnofwd e he, hnoinv e he⟩

/-- Witness for C2: creating the rotate pivot on a prim with a translate op
and no pivot yields a committed order holding the forward and inverse pivot
ops. -/
theorem pivotOpFunc_pair_atomic_witness :
    (∀ op p',
        pivotOpFunc (xformOpName "translate" "rotatePivot") "rotatePivot"
            ⟨true, [⟨"xformOp:translate"⟩], false, [], true, false, []⟩ =
          some (op, p') →
        op.opName = xformOpName "translate" "rotatePivot" ∧
        (∃ e ∈ p'.xformOps, e.opName = xformOpName "translate" "rotatePivot") ∧
        (∃ e ∈ p'.xformOps,
          e.opName = "!invert!" ++ xformOpName "translate" "rotatePivot")) ∧
    (pivotOpFunc (xformOpName "translate" "rotatePivot") "rotatePivot"
          ⟨true, [⟨"xformOp:translate"⟩], false, [], true, false, []⟩ = none →
        ∀ e ∈ ([⟨"xformOp:translate"⟩] : List XformOp),
          e.opName ≠ xformOpName "translate" "rotatePivot" ∧
          e.opName ≠ "!invert!" ++ xformOpName "translate" "rotatePivot") :=
  pivotOpFunc_pair_atomic
    ⟨true, [⟨"xformOp:translate"⟩], false, [], true, false, []⟩ "rotatePivot"
    (Or.inl rfl) (by decide) (by decide) (by decide)

end MayaXformStack
